import Mathlib

/-!
Verification of the CanvasLMS-Agent backend (Python): a shallow embedding in
Lean 4 of the remote-API client's pagination, the domain query functions
(course listing, upcoming assignments, hint resolution, announcements), the
course file-tree builder, the `browse_course_files` tool wrapper, and the
agent orchestrator's empty-output fallback, together with theorems settling
the specification's claims about them.

Conventions used throughout the embedding:
* JSON dictionary fields are `Option`-valued record fields (`none` = the key
  is missing or its value is JSON `null`).
* Python truthiness is modelled explicitly: an `Option Int` field is truthy
  iff it is `some i` with `i ≠ 0`; an `Option String` field is truthy iff it
  is `some s` with `s ≠ ""`.
* Machine time: instants are `Int` (seconds relative to the Unix epoch, which
  is instant `0`); `datetime` comparison is `Int` comparison.
* ISO-8601 timestamp *text* is abstracted to its denotation: a raw JSON
  timestamp field is a `JsonTime` that is either missing, malformed text, or
  well-formed text denoting an instant.  `_parse_iso` then becomes `parseIso`.
* The remote HTTP server is an explicit parameter (a function from request
  URL and query parameters to an optional response); `none` models a
  transport/HTTP error (`raise_for_status`).
* Unbounded Python loops/recursion (the pagination `while` loop, the
  `_make_node` recursion) take an explicit fuel argument; returning `none`
  on fuel exhaustion models non-termination.
-/

namespace CanvasLMS

/-! ## Python-style primitives -/

/-- Python truthiness for an optional integer field (`None` and `0` are falsy). -/
def truthyInt : Option Int → Bool
  | none => false
  | some i => i != 0

/-- Python truthiness for an optional string field (`None` and `""` are falsy). -/
def truthyStr : Option String → Bool
  | none => false
  | some s => s ≠ ""

/-- Python `a or b` for optional strings: the first truthy operand, else `b`'s value. -/
def pyOrStr (a : Option String) (b : String) : String :=
  match a with
  | some s => if s = "" then b else s
  | none => b

/-- Python `a or b` where both operands stay optional (used for falsy chains
whose result may itself be `None`). -/
def pyOrOptStr (a b : Option String) : Option String :=
  match a with
  | some s => if s = "" then b else some s
  | none => b

/-! ## List-of-characters string helpers

The Python code manipulates strings with `split`, `strip`, slicing, `in`
(substring test), `lower`, `replace` and a little regex.  These are embedded
as executable functions on `List Char` (the `data` of a `String`) so that the
kernel can evaluate them on concrete inputs. -/

/-- Does `pat` occur at the head of `s`? (`list_startsWith pat s`). -/
def listHeadMatch : List Char → List Char → Bool
  | [], _ => true
  | _ :: _, [] => false
  | p :: ps, c :: cs => p == c && listHeadMatch ps cs

/-- Does `pat` occur (contiguously) anywhere in `s`?  Models Python's
`pat in s` for a nonempty `pat`. -/
def listInfixMatch (pat : List Char) : List Char → Bool
  | [] => listHeadMatch pat []
  | c :: cs => listHeadMatch pat (c :: cs) || listInfixMatch pat cs

/-- Python `pat in s` (substring containment). -/
def strContains (s pat : String) : Bool :=
  listInfixMatch pat.data s.data

/-- Split a character list at every occurrence of the separator character.
Models Python's `str.split(sep)` for a one-character separator: every
occurrence separates, empty pieces are kept, `""` splits to `[""]`. -/
def listSplitOn (sep : Char) : List Char → List (List Char)
  | [] => [[]]
  | c :: cs =>
    let rest := listSplitOn sep cs
    if c == sep then
      [] :: rest
    else
      match rest with
      | [] => [[c]]
      | piece :: more => (c :: piece) :: more

/-- Python `str.split(sep)` for a one-character separator. -/
def strSplitOn (sep : Char) (s : String) : List String :=
  (listSplitOn sep s.data).map (fun cs => ⟨cs⟩)

/-- Python `str.strip()`: drop whitespace from both ends. -/
def strStrip (s : String) : String :=
  ⟨(s.data.dropWhile Char.isWhitespace).reverse.dropWhile Char.isWhitespace |>.reverse⟩

/-- Python `s[1:-1]`: drop the first and the last character. -/
def strSlice1m1 (s : String) : String :=
  ⟨(s.data.drop 1).dropLast⟩

/-- Python `str.lower()` (ASCII case folding, as exercised by the code's data). -/
def strLower (s : String) : String :=
  ⟨s.data.map Char.toLower⟩

/-- Python `str.startswith(pre)`. -/
def strStartsWith (s pre : String) : Bool :=
  listHeadMatch pre.data s.data

/-- Python `str.isdigit()` on an ASCII string: nonempty and all digits. -/
def strIsDigit (s : String) : Bool :=
  !s.data.isEmpty && s.data.all Char.isDigit

/-- Decimal value of a digit run. -/
def digitsToNat (ds : List Char) : Nat :=
  ds.foldl (fun acc c => acc * 10 + (c.toNat - '0'.toNat)) 0

/-- Python `int(s)` on a stripped string: optional sign followed by at least
one digit; any other shape raises (here: `none`). -/
def pyParseInt (s : String) : Option Int :=
  match s.data with
  | '-' :: ds =>
    if !ds.isEmpty && ds.all Char.isDigit then
      some (-(Int.ofNat (digitsToNat ds)))
    else none
  | '+' :: ds =>
    if !ds.isEmpty && ds.all Char.isDigit then
      some (Int.ofNat (digitsToNat ds))
    else none
  | ds =>
    if !ds.isEmpty && ds.all Char.isDigit then
      some (Int.ofNat (digitsToNat ds))
    else none

/-! ## Remote-API client: `CanvasClient.paginate` (canvas_tools.py lines 46-74) -/

/-- A query-parameter value (the code sends both strings and integers). -/
inductive PVal where
  | s (v : String)
  | n (v : Nat)
deriving DecidableEq, Repr

/-- Query parameters, as the ordered key/value dictionary the code builds. -/
abbrev Params := List (String × PVal)

/-- Python `dict.setdefault(k, v)`: insert `(k, v)` (at the end) only when the
key is absent. -/
def setdefault (ps : Params) (k : String) (v : PVal) : Params :=
  if ps.any (fun p => p.1 == k) then ps else ps ++ [(k, v)]

/-- A page body: `resp.json()` is either a JSON list of records or a single
dict-shaped record (`α` is the record type). -/
inductive PageBody (α : Type) where
  | list (items : List α)
  | dict (item : α)
deriving DecidableEq

/-- The records a page yields: a list-shaped page is flattened, a dict-shaped
page is a single record (paginate, lines 57-63). -/
def pageRecords {α : Type} : PageBody α → List α
  | .list items => items
  | .dict item => [item]

/-- One HTTP response as `paginate` consumes it: the decoded body and the raw
`Link` header (when present). -/
structure PageResponse (α : Type) where
  body : PageBody α
  linkHeader : Option String
deriving DecidableEq

/-- The records one response contributes to the paginated sequence. -/
def respRecords {α : Type} (r : PageResponse α) : List α :=
  pageRecords r.body

/-- The per-part scan of the `Link` header (lines 68-72): for the first part
whose `;`-split has a second segment containing `rel="next"`, the next URL is
the stripped first segment without its first and last character. -/
def nextFromParts : List String → Option String
  | [] => none
  | part :: parts =>
    match strSplitOn ';' part with
    | seg0 :: seg1 :: _ =>
      if strContains seg1 "rel=\"next\"" then some (strSlice1m1 (strStrip seg0))
      else nextFromParts parts
    | _ => nextFromParts parts

/-- The `Link`-header handling of `paginate` (lines 65-72): when a header is
present, split it on `,` and scan the parts for the `rel="next"` link. -/
def parseNextUrl : Option String → Option String
  | none => none
  | some link => nextFromParts (strSplitOn ',' link)

/-- Model of `CanvasClient._url` (lines 32-35): prepend the API root, inserting a `/`
when the path does not start with one. -/
def clientUrl (apiRoot path : String) : String :=
  if path = "" then apiRoot
  else if strStartsWith path "/" then apiRoot ++ path
  else apiRoot ++ "/" ++ path

/-- The synchronous remote server: a response for a GET of a URL with query
parameters, or `none` for a transport/HTTP error (which `raise_for_status`
turns into an exception). -/
abbrev Server (α : Type) := String → Params → Option (PageResponse α)

/-- The `while url:` loop of `paginate` (lines 50-74), with explicit fuel.
Returns the records yielded so far together with the trace of issued requests
(URL and query parameters); `none` models a raised error or exhausted fuel.
The loop stops when the next URL is absent or empty (Python string falsiness),
and otherwise re-issues the same query parameters against the advertised URL. -/
def paginateGo {α : Type} (server : Server α) (ps : Params) :
    Nat → String → Option (List α × List (String × Params))
  | 0, url => if url = "" then some ([], []) else none
  | fuel + 1, url =>
    if url = "" then some ([], [])
    else
      match server url ps with
      | none => none
      | some resp =>
        let nxt := match parseNextUrl resp.linkHeader with
          | none => ""
          | some u => u
        match paginateGo server ps fuel nxt with
        | none => none
        | some (rest, reqs) => some (respRecords resp ++ rest, (url, ps) :: reqs)

/-- Model of `CanvasClient.paginate(path, params)` (lines 46-74): copy the caller's
params, inject the default page size `per_page=100` when absent, start at
`_url(path)`, and follow `rel="next"` links until none is advertised. -/
def paginate {α : Type} (server : Server α) (apiRoot path : String)
    (params : Params) (fuel : Nat) : Option (List α × List (String × Params)) :=
  paginateGo server (setdefault params "per_page" (.n 100)) fuel (clientUrl apiRoot path)

/-- A synthetic multi-page response sequence: the server answers each URL of
`us` (with the fixed query parameters `ps`) with the corresponding response of
`rs`; every response but the last advertises the next URL of the sequence via
its `Link` header (as `paginate`'s parser reads it), and the last one
advertises none. -/
inductive ServesChain {α : Type} (server : Server α) (ps : Params) :
    List String → List (PageResponse α) → Prop
  | last {u : String} {r : PageResponse α} :
      u ≠ "" → server u ps = some r → parseNextUrl r.linkHeader = none →
      ServesChain server ps [u] [r]
  | step {u u' : String} {r : PageResponse α} {us : List String}
      {rs : List (PageResponse α)} :
      u ≠ "" → server u ps = some r → parseNextUrl r.linkHeader = some u' →
      ServesChain server ps (u' :: us) rs →
      ServesChain server ps (u :: u' :: us) (r :: rs)

/-- The pagination loop is a no-op on the empty (falsy) URL. -/
theorem paginateGo_empty_url {α : Type} (server : Server α) (ps : Params)
    (fuel : Nat) : paginateGo server ps fuel "" = some ([], []) := by
  cases fuel <;> simp [paginateGo]

/-- Unfolding the pagination loop along a synthetic response chain. -/
theorem paginateGo_of_chain {α : Type} {server : Server α} {ps : Params}
    {us : List String} {rs : List (PageResponse α)}
    (h : ServesChain server ps us rs) :
    ∀ fuel, rs.length ≤ fuel → ∀ u rest, us = u :: rest →
      paginateGo server ps fuel u
        = some (rs.flatMap respRecords, us.map (fun v => (v, ps))) := by
  induction h with
  | last hne hs hn =>
    intro fuel hf u rest hus
    obtain ⟨rfl, rfl⟩ : _ ∧ _ := by
      simpa [List.cons.injEq] using hus.symm
    match fuel, hf with
    | fuel + 1, _ =>
      simp [paginateGo, hne, hs, hn, paginateGo_empty_url]
  | step hne hs hn _h ih =>
    intro fuel hf u rest hus
    obtain ⟨rfl, rfl⟩ : _ ∧ _ := by
      simpa [List.cons.injEq] using hus.symm
    match fuel, hf with
    | fuel + 1, hf =>
      have hrec := ih fuel (by simpa using Nat.le_of_succ_le_succ hf) _ _ rfl
      simp [paginateGo, hne, hs, hn, hrec]

/-- Claim C1 (pagination): for every synthetic multi-page response sequence
starting at `_url(path)`, `paginate` yields exactly the concatenation of every
page's records in page order (a list-shaped page flattened, a dict-shaped page
as one record), issues exactly one request per page, each after the first at
the URL advertised by the previous page's `Link` header with relation
`next`, stopping exactly when no further `next` link is advertised; and when
the caller's params carry no `per_page` key, every request (the first in
particular) carries the injected default page size `per_page=100`. -/
theorem paginate_multi_page {α : Type} (server : Server α)
    (apiRoot path : String) (params : Params) (fuel : Nat)
    (us : List String) (rs : List (PageResponse α))
    (hchain : ServesChain server (setdefault params "per_page" (.n 100)) us rs)
    (hhead : us.head? = some (clientUrl apiRoot path))
    (hfuel : rs.length ≤ fuel) :
    paginate server apiRoot path params fuel
      = some (rs.flatMap respRecords,
          us.map (fun v => (v, setdefault params "per_page" (PVal.n 100))))
    ∧ (params.all (fun p => p.1 ≠ "per_page") = true →
        ∀ q ∈ us.map (fun v => (v, setdefault params "per_page" (PVal.n 100))),
          ("per_page", PVal.n 100) ∈ q.2) := by
  constructor
  · obtain ⟨u, rest, rfl⟩ : ∃ u rest, us = u :: rest := by
      cases us with
      | nil => simp at hhead
      | cons u rest => exact ⟨u, rest, rfl⟩
    have hu : u = clientUrl apiRoot path := by simpa using hhead
    subst hu
    exact paginateGo_of_chain hchain fuel hfuel _ _ rfl
  · intro hall q hq
    have hnone : params.any (fun p => p.1 == "per_page") = false := by
      simp only [List.all_eq_true, decide_eq_true_eq] at hall
      simp only [List.any_eq_false]
      intro p hp
      simpa using hall p hp
    obtain ⟨v, hv, rfl⟩ := List.mem_map.mp hq
    simp [setdefault, hnone]

/-- A concrete three-page synthetic server for the pagination witness: the
first page is list-shaped, the second dict-shaped, the third list-shaped with
a `Link` header that advertises no `next` relation; responses are only served
when the injected `per_page=100` parameter is present. -/
def demoServer : Server Nat := fun url ps =>
  if ("per_page", PVal.n 100) ∈ ps then
    if url = "https://school.edu/api/v1/courses" then
      some ⟨.list [1, 2],
        some "<https://school.edu/api/v1/courses?page=1>; rel=\"current\", <https://school.edu/api/v1/courses?page=2>; rel=\"next\""⟩
    else if url = "https://school.edu/api/v1/courses?page=2" then
      some ⟨.dict 3, some "<https://school.edu/api/v1/courses?page=3>; rel=\"next\""⟩
    else if url = "https://school.edu/api/v1/courses?page=3" then
      some ⟨.list [4], some "<https://school.edu/api/v1/courses?page=3>; rel=\"current\""⟩
    else none
  else none

/-- The query parameters every demo request is expected to carry. -/
def demoPs : Params :=
  [("enrollment_state", PVal.s "active"), ("per_page", PVal.n 100)]

/-- The URLs the demo pagination should request, in order. -/
def demoUrls : List String :=
  ["https://school.edu/api/v1/courses",
   "https://school.edu/api/v1/courses?page=2",
   "https://school.edu/api/v1/courses?page=3"]

/-- The responses of the demo chain, in page order. -/
def demoPages : List (PageResponse Nat) :=
  [⟨.list [1, 2],
      some "<https://school.edu/api/v1/courses?page=1>; rel=\"current\", <https://school.edu/api/v1/courses?page=2>; rel=\"next\""⟩,
   ⟨.dict 3, some "<https://school.edu/api/v1/courses?page=3>; rel=\"next\""⟩,
   ⟨.list [4], some "<https://school.edu/api/v1/courses?page=3>; rel=\"current\""⟩]

/-- Witness for C1: on the concrete three-page server, `paginate` yields the
flattened records `[1, 2, 3, 4]`, requests exactly the advertised URL chain,
and every request carries the injected `per_page=100`. -/
theorem paginate_multi_page_witness :
    paginate demoServer "https://school.edu/api/v1" "/courses"
        [("enrollment_state", PVal.s "active")] 3
      = some ([1, 2, 3, 4], demoUrls.map (fun v => (v, demoPs)))
    ∧ ∀ q ∈ demoUrls.map (fun v => (v, demoPs)), ("per_page", PVal.n 100) ∈ q.2 := by
  have hchain : ServesChain demoServer demoPs demoUrls demoPages :=
    .step (by decide) (by decide) (by decide)
      (.step (by decide) (by decide) (by decide)
        (.last (by decide) (by decide) (by decide)))
  have h := paginate_multi_page demoServer "https://school.edu/api/v1" "/courses"
    [("enrollment_state", PVal.s "active")] 3 demoUrls demoPages hchain
    (by decide) (by decide)
  exact ⟨h.1, h.2 (by decide)⟩

/-! ## Course records and hint resolution (`_find_course_ids_by_hint`,
canvas_tools.py lines 152-198) -/

/-- A remote course record as the domain functions read it (`id`, `name`,
`course_code`, `code` JSON fields). -/
structure CourseRec where
  id : Option Int
  name : Option String
  course_code : Option String
  code : Option String
deriving DecidableEq, Repr

/-- Model of `str(c.get("course_code") or c.get("code") or "")`. -/
def courseCodeOf (c : CourseRec) : String :=
  pyOrStr c.course_code (pyOrStr c.code "")

/-- The maximal run of digits at the end of a character list. -/
def trailingDigits (cs : List Char) : List Char :=
  (cs.reverse.takeWhile Char.isDigit).reverse

/-- Model of `re.search(r"(\d{3,6})$", code)` (line 172): a match exists iff the code
ends in at least three digits; the leftmost such match (with the greedy,
backtracking quantifier) captures the last `min(run, 6)` trailing digits.
Returns `""` when there is no match (the code leaves `suffix = ""`). -/
def codeSuffix (code : String) : String :=
  let td := trailingDigits code.data
  if 3 ≤ td.length then ⟨td.drop (td.length - 6)⟩ else ""

/-- One collected row of `_find_course_ids_by_hint`'s `items` list:
`(id, name, course_code, short_suffix)` (lines 162-175). -/
structure HintItem where
  cid : Int
  name : String
  code : String
  suffix : String
deriving DecidableEq, Repr

/-- The `items` collection loop (lines 163-175): skip records with a falsy
`id`, default `name`/`code` to `""`, extract the trailing-digit suffix of a
truthy code. -/
def hintItems (courses : List CourseRec) : List HintItem :=
  courses.filterMap (fun c =>
    match c.id with
    | none => none
    | some cid =>
      if cid = 0 then none
      else
        let code := courseCodeOf c
        some ⟨cid, pyOrStr c.name "", code, if code = "" then "" else codeSuffix code⟩)

/-- Rule 1 (lines 177-180): ids of items whose truthy code equals the lowered
hint case-insensitively. -/
def exactCodeMatches (lowered : String) (items : List HintItem) : List Int :=
  (items.filter (fun it => it.code != "" && strLower it.code == lowered)).map (·.cid)

/-- Rule 2 (lines 182-186): ids of items whose nonempty trailing-digit suffix
equals the (purely numeric) hint. -/
def suffixMatches (hint : String) (items : List HintItem) : List Int :=
  (items.filter (fun it => it.suffix != "" && it.suffix == hint)).map (·.cid)

/-- Rule 3 (lines 188-191): ids of items whose lowered name contains the
lowered hint as a substring. -/
def nameSubstrMatches (lowered : String) (items : List HintItem) : List Int :=
  (items.filter (fun it => strContains (strLower it.name) lowered)).map (·.cid)

/-- Rule 4 (lines 193-198): the hint parsed as a literal course id, when it
parses as an integer; otherwise no match. -/
def idFallback (hint : String) : List Int :=
  match pyParseInt hint with
  | some num => [num]
  | none => []

/-- Model of `_find_course_ids_by_hint` (lines 152-198): empty hint resolves to
nothing; otherwise strip and lower the hint, collect the items, and apply
rules 1-4 in strict priority order. -/
def findCourseIdsByHint (hintRaw : String) (courses : List CourseRec) : List Int :=
  if hintRaw = "" then []
  else
    let hint := strStrip hintRaw
    let lowered := strLower hint
    let items := hintItems courses
    let exact := exactCodeMatches lowered items
    if exact ≠ [] then exact
    else
      let tail := if strIsDigit hint then suffixMatches hint items else []
      if tail ≠ [] then tail
      else
        let nameHits := nameSubstrMatches lowered items
        if nameHits ≠ [] then nameHits
        else idFallback hint

/-- The two demo courses of the claim's example: codes `SDSC5003` and
`COMP5003X` (names chosen not to contain the hint). -/
def hintCourseA : CourseRec := ⟨some 1, some "Database Systems", some "SDSC5003", none⟩

/-- Second demo course; its code ends in a letter, so the trailing-digit
regex finds no suffix for it. -/
def hintCourseB : CourseRec := ⟨some 2, some "Advanced Topics", some "COMP5003X", none⟩

/-- Counterexample to **C2** as stated: hint `"5003"` against codes
`SDSC5003` and `COMP5003X` matches only course 1 — `COMP5003X` ends in a
non-digit, so `re.search(r"(\d{3,6})$")` finds no trailing numeric suffix for
it and course 2 is not matched at all. -/
theorem hint_5003_does_not_match_comp5003x :
    findCourseIdsByHint "5003" [hintCourseA, hintCourseB] = [1]
    ∧ (2 : Int) ∉ findCourseIdsByHint "5003" [hintCourseA, hintCourseB] := by
  decide

/-- Claim C2 (amended): `_find_course_ids_by_hint` applies the strict priority
order (1) exact case-insensitive code match, (2) trailing-numeric-suffix
match for purely numeric hints, (3) case-insensitive name-substring match,
(4) literal-course-id fallback for integer hints; hint `"5003"` against codes
`SDSC5003` and `COMP5003X` matches only `SDSC5003`, via the numeric-suffix
rule (not via the literal-id fallback), since `COMP5003X` has no
trailing-digit suffix; hint `"SDSC5003"` matches only the exact-code
course. -/
theorem find_course_ids_by_hint_priority (hintRaw : String)
    (courses : List CourseRec) (hne : hintRaw ≠ "") :
    (exactCodeMatches (strLower (strStrip hintRaw)) (hintItems courses) ≠ [] →
      findCourseIdsByHint hintRaw courses
        = exactCodeMatches (strLower (strStrip hintRaw)) (hintItems courses))
    ∧ (exactCodeMatches (strLower (strStrip hintRaw)) (hintItems courses) = [] →
       strIsDigit (strStrip hintRaw) = true →
       suffixMatches (strStrip hintRaw) (hintItems courses) ≠ [] →
      findCourseIdsByHint hintRaw courses
        = suffixMatches (strStrip hintRaw) (hintItems courses))
    ∧ (exactCodeMatches (strLower (strStrip hintRaw)) (hintItems courses) = [] →
       (if strIsDigit (strStrip hintRaw) then
          suffixMatches (strStrip hintRaw) (hintItems courses) else []) = [] →
       nameSubstrMatches (strLower (strStrip hintRaw)) (hintItems courses) ≠ [] →
      findCourseIdsByHint hintRaw courses
        = nameSubstrMatches (strLower (strStrip hintRaw)) (hintItems courses))
    ∧ (exactCodeMatches (strLower (strStrip hintRaw)) (hintItems courses) = [] →
       (if strIsDigit (strStrip hintRaw) then
          suffixMatches (strStrip hintRaw) (hintItems courses) else []) = [] →
       nameSubstrMatches (strLower (strStrip hintRaw)) (hintItems courses) = [] →
      findCourseIdsByHint hintRaw courses = idFallback (strStrip hintRaw))
    ∧ findCourseIdsByHint "5003" [hintCourseA, hintCourseB]
        = suffixMatches "5003" (hintItems [hintCourseA, hintCourseB])
    ∧ findCourseIdsByHint "5003" [hintCourseA, hintCourseB] = [1]
    ∧ findCourseIdsByHint "5003" [hintCourseA, hintCourseB] ≠ idFallback "5003"
    ∧ findCourseIdsByHint "SDSC5003" [hintCourseA, hintCourseB] = [1] := by
  refine ⟨?_, ?_, ?_, ?_, by decide, by decide, by decide, by decide⟩
  · intro h1
    simp [findCourseIdsByHint, hne, h1]
  · intro h1 hd h2
    simp [findCourseIdsByHint, hne, h1, hd, h2]
  · intro h1 h2 h3
    simp only [findCourseIdsByHint, if_neg hne, h1, ne_eq, not_true_eq_false,
      if_false, h2, h3, not_false_eq_true, if_true]
  · intro h1 h2 h3
    simp only [findCourseIdsByHint, if_neg hne, h1, ne_eq, not_true_eq_false,
      if_false, h2, h3]

/-- Witness for C2: on the concrete two-course set, the numeric-suffix rule
(rule 2) decides hint `"5003"`, with the earlier rule empty and the digit
test true. -/
theorem find_course_ids_by_hint_priority_witness :
    findCourseIdsByHint "5003" [hintCourseA, hintCourseB]
      = suffixMatches "5003" (hintItems [hintCourseA, hintCourseB]) := by
  have h := find_course_ids_by_hint_priority "5003" [hintCourseA, hintCourseB]
    (by decide)
  exact h.2.1 (by decide) (by decide) (by decide)

/-! ## Timestamps and the course/assignment query functions
(canvas_tools.py lines 79-138) -/

/-- A raw JSON timestamp field: missing/null, malformed text, or well-formed
ISO-8601 text abstracted to the instant it denotes (seconds relative to the
Unix epoch). -/
inductive JsonTime where
  | null
  | malformed (raw : String)
  | iso (t : Int)
deriving DecidableEq, Repr

/-- Model of `_parse_iso` (lines 79-85): a falsy or malformed timestamp parses to
`None`; well-formed ISO-8601 text parses to the instant it denotes. -/
def parseIso : JsonTime → Option Int
  | .null => none
  | .malformed _ => none
  | .iso t => some t

/-- Model of `_format_time` (lines 88-93): `None` prints `无`; otherwise the instant is
rendered in the local timezone.  The environment-dependent local rendering is
abstracted to a decimal rendering of the instant (no claim inspects it). -/
def formatTime : Option Int → String
  | none => "无"
  | some t => toString t

/-- Kernel-reducible code-point lexicographic comparison of character lists
(Python's `str <`). -/
def listCharLt : List Char → List Char → Bool
  | _, [] => false
  | [], _ :: _ => true
  | a :: as, b :: bs =>
    if a.toNat < b.toNat then true
    else if a.toNat = b.toNat then listCharLt as bs
    else false

/-- Python `a < b` on strings. -/
def strLt (a b : String) : Bool :=
  listCharLt a.data b.data

/-- Python's ascending, stable sort key comparison on strings (`a` may come
before `b` iff `b` is not strictly smaller). -/
def strKeyLe (a b : String) : Bool :=
  !(strLt b a)

/-- One record of `list_my_courses_func`'s collection loop (lines 98-103):
`None` unless both id and name are truthy. -/
def listCourseEntry (c : CourseRec) : Option (String × Int × String) :=
  match c.id, c.name with
  | some i, some n =>
    if i = 0 ∨ n = "" then none
    else some (n, i, courseCodeOf c)
  | _, _ => none

/-- Model of `list_my_courses_func`'s collected and sorted course tuples
`(name, id, code)` (lines 96-106): drop records with a falsy id or name,
default the code to `""`, then sort by name (stable). -/
def listMyCoursesEntries (courses : List CourseRec) : List (String × Int × String) :=
  (courses.filterMap listCourseEntry).insertionSort
    (fun x y => strKeyLe x.1 y.1 = true)

/-- Model of `list_my_courses_func` (lines 96-113): the sentinel for an empty course
set, otherwise one display line per course. -/
def listMyCourses (courses : List CourseRec) : String :=
  let cs := listMyCoursesEntries courses
  if cs.isEmpty then "未找到任何在读课程。"
  else
    String.intercalate "\n" (cs.map (fun e =>
      if e.2.2 ≠ "" then
        "课程: " ++ e.1 ++ " | 代码: " ++ e.2.2 ++ " | id: " ++ toString e.2.1
      else "课程: " ++ e.1 ++ " | id: " ++ toString e.2.1))

/-- A remote assignment record as `get_upcoming_assignments_func` reads it. -/
structure AssignmentRec where
  name : Option String
  due_at : JsonTime
deriving DecidableEq, Repr

/-- One display line of the upcoming-assignments report (line 130). -/
def assignmentLine (courseName : String) (a : AssignmentRec) (due : Int) : String :=
  "课程: " ++ courseName ++ " | 作业: " ++ a.name.getD "未命名"
    ++ " | 截止: " ++ formatTime (some due)

/-- The per-record guard of `get_upcoming_assignments_func`'s course scan
(lines 122-125): skip records with a falsy id. -/
def upcomingCourseEntry (c : CourseRec) : Option (Int × String) :=
  match c.id with
  | none => none
  | some cid => if cid = 0 then none else some (cid, pyOrStr c.name "未知课程")

/-- The course scan of `get_upcoming_assignments_func` (lines 121-125): the
`(course_id, display_name)` pairs for which the per-course assignments
endpoint is paginated — records with a falsy `id` are skipped. -/
def upcomingCourses (courses : List CourseRec) : List (Int × String) :=
  courses.filterMap upcomingCourseEntry

/-- The per-assignment retention test (lines 127-130): skip when the due
timestamp is unparseable or not strictly in the future. -/
def retainKeep (now : Int) (courseName : String) (a : AssignmentRec) :
    Option (Int × String) :=
  match parseIso a.due_at with
  | none => none
  | some due =>
    if due ≤ now then none else some (due, assignmentLine courseName a due)

/-- The collected and sorted `(due, line)` items of
`get_upcoming_assignments_func` (lines 117-135): every fetched course's
retained assignments, sorted ascending by due instant (stable).
`assignOf cid` is the record sequence the remote returns for
`/courses/{cid}/assignments`. -/
def upcomingItems (now : Int) (courses : List CourseRec)
    (assignOf : Int → List AssignmentRec) : List (Int × String) :=
  ((upcomingCourses courses).flatMap (fun p =>
    (assignOf p.1).filterMap (retainKeep now p.2))).insertionSort
      (fun x y => x.1 ≤ y.1)

/-- Model of `get_upcoming_assignments_func` (lines 116-138): the sentinel for no
retained assignments, otherwise the sorted report lines. -/
def getUpcomingAssignments (now : Int) (courses : List CourseRec)
    (assignOf : Int → List AssignmentRec) : String :=
  let items := upcomingItems now courses assignOf
  if items.isEmpty then "当前没有未截止的作业。"
  else String.intercalate "\n" (items.map (·.2))

/-- The two retention spellings agree: "skip unless parseable and strictly
future" equals "keep exactly the parseable strictly-future ones". -/
theorem retainKeep_eq_future (now : Int) (nm : String) (las : List AssignmentRec) :
    las.filterMap (retainKeep now nm)
      = las.filterMap (fun a =>
          match parseIso a.due_at with
          | none => none
          | some due =>
            if now < due then some (due, assignmentLine nm a due) else none) := by
  congr 1
  funext a
  rcases hp : parseIso a.due_at with _ | due
  · simp [retainKeep, hp]
  · rcases le_or_lt due now with hle | hlt
    · simp [retainKeep, hp, hle, not_lt.mpr hle]
    · simp [retainKeep, hp, hlt, not_le.mpr hlt]

/-- Claim C3: when every active course record carries a truthy id,
`upcoming_assignments` retains, across every course, exactly the assignments
with a parseable due instant strictly after the invocation time (due exactly
at `now` is excluded, any later instant included), and the report lists all
retained assignments of all courses in non-decreasing order of due instant. -/
theorem upcoming_assignments_filter_sort (now : Int) (courses : List CourseRec)
    (assignOf : Int → List AssignmentRec)
    (h : ∀ c ∈ courses, truthyInt c.id = true) :
    (upcomingItems now courses assignOf).Perm
      (courses.flatMap (fun c =>
        (assignOf (c.id.getD 0)).filterMap (fun a =>
          match parseIso a.due_at with
          | none => none
          | some due =>
            if now < due then
              some (due, assignmentLine (pyOrStr c.name "未知课程") a due)
            else none)))
    ∧ List.Sorted (fun p q => p.1 ≤ q.1) (upcomingItems now courses assignOf) := by
  constructor
  · refine (List.perm_insertionSort
      (fun (x y : Int × String) => x.1 ≤ y.1)
      ((upcomingCourses courses).flatMap (fun p =>
        (assignOf p.1).filterMap (retainKeep now p.2)))).trans
      (List.Perm.of_eq ?_)
    induction courses with
    | nil => simp [upcomingCourses]
    | cons c cs ih =>
      have hc := h c (by simp)
      obtain ⟨i, hi⟩ : ∃ i, c.id = some i := by
        cases hid : c.id with
        | none => rw [hid] at hc; simp [truthyInt] at hc
        | some i => exact ⟨i, rfl⟩
      have hiz : ¬ i = 0 := by
        rw [hi] at hc
        simpa [truthyInt] using hc
      have ih' := ih (fun c hc => h c (by simp [hc]))
      have h1 : upcomingCourses (c :: cs)
          = (i, pyOrStr c.name "未知课程") :: upcomingCourses cs := by
        simp [upcomingCourses, upcomingCourseEntry, List.filterMap_cons, hi, hiz]
      rw [h1, List.flatMap_cons, List.flatMap_cons, ih', retainKeep_eq_future, hi]
      simp
  · haveI : IsTotal (Int × String) (fun p q => p.1 ≤ q.1) :=
      ⟨fun a b => le_total a.1 b.1⟩
    haveI : IsTrans (Int × String) (fun p q => p.1 ≤ q.1) :=
      ⟨fun _ _ _ hab hbc => le_trans hab hbc⟩
    exact List.sorted_insertionSort _ _

/-- Demo course set for the C3 witness. -/
def upcomingDemoCourses : List CourseRec := [⟨some 7, some "SDSC", none, none⟩]

/-- Demo assignment server for the C3 witness: course 7 has one assignment due
exactly at the invocation time, one due one second later, one with no due
timestamp, and one already past due. -/
def upcomingDemoAssign : Int → List AssignmentRec := fun i =>
  if i = 7 then
    [⟨some "hw-at-now", .iso 1000⟩, ⟨some "hw-future", .iso 1001⟩,
     ⟨some "hw-undated", .null⟩, ⟨some "hw-past", .iso 999⟩]
  else []

/-- Witness for C3 at `now = 1000`: only the assignment due at instant 1001
is retained (the one due exactly at 1000 is excluded), and the report is
sorted. -/
theorem upcoming_assignments_filter_sort_witness :
    (∀ c ∈ upcomingDemoCourses, truthyInt c.id = true)
    ∧ ((upcomingItems 1000 upcomingDemoCourses upcomingDemoAssign).Perm
        (upcomingDemoCourses.flatMap (fun c =>
          (upcomingDemoAssign (c.id.getD 0)).filterMap (fun a =>
            match parseIso a.due_at with
            | none => none
            | some due =>
              if 1000 < due then
                some (due, assignmentLine (pyOrStr c.name "未知课程") a due)
              else none)))
      ∧ List.Sorted (fun p q => p.1 ≤ q.1)
          (upcomingItems 1000 upcomingDemoCourses upcomingDemoAssign))
    ∧ (upcomingItems 1000 upcomingDemoCourses upcomingDemoAssign).map Prod.fst
        = [1001] := by
  refine ⟨by decide, ?_, by decide⟩
  exact upcoming_assignments_filter_sort 1000 upcomingDemoCourses
    upcomingDemoAssign (by decide)

/-- The course record of the C9 counterexample: a negative id is Python-truthy
and so is not filtered out. -/
def negCourse : CourseRec := ⟨some (-1), some "Ghost", none, none⟩

/-- Counterexample to **C9** as stated: a course record with the non-positive
id `-1` passes both filters — `upcoming_assignments` pages the assignments
endpoint of course `-1` for it and `list_courses` lists it — so a course
with a non-positive id does reach downstream lookups. -/
theorem negative_course_id_reaches_lookup :
    upcomingCourses [negCourse] = [(-1, "Ghost")]
    ∧ ¬ (0 < (-1 : Int))
    ∧ listMyCoursesEntries [negCourse] = [("Ghost", -1, "")] := by
  decide

/-- Claim C9 (amended): the guards guarantee a *truthy* (present and nonzero)
id, not a positive one: every entry of `list_courses` comes from a record
with a truthy id and truthy name, and every course id for which
`upcoming_assignments` pages the assignments endpoint is nonzero and comes
from a record carrying it. -/
theorem course_id_truthy_before_lookup (courses : List CourseRec) :
    (∀ e ∈ listMyCoursesEntries courses,
      e.2.1 ≠ 0 ∧ e.1 ≠ "" ∧ ∃ c ∈ courses, c.id = some e.2.1 ∧ c.name = some e.1)
    ∧ (∀ p ∈ upcomingCourses courses, p.1 ≠ 0 ∧ ∃ c ∈ courses, c.id = some p.1) := by
  constructor
  · intro e he
    have he' : e ∈ courses.filterMap listCourseEntry :=
      (List.perm_insertionSort _ _).mem_iff.mp he
    obtain ⟨c, hc, hfc⟩ := List.mem_filterMap.mp he'
    obtain ⟨cid, cname, cc1, cc2⟩ := c
    rcases cid with _ | i
    · simp [listCourseEntry] at hfc
    · rcases cname with _ | n
      · simp [listCourseEntry] at hfc
      · by_cases hz : i = 0 ∨ n = ""
        · simp [listCourseEntry, hz] at hfc
        · push_neg at hz
          simp only [listCourseEntry, if_neg (by tauto : ¬ (i = 0 ∨ n = "")),
            Option.some.injEq] at hfc
          cases hfc
          exact ⟨hz.1, hz.2, ⟨some i, some n, cc1, cc2⟩, hc, rfl, rfl⟩
  · intro p hp
    obtain ⟨c, hc, hfc⟩ := List.mem_filterMap.mp hp
    obtain ⟨cid, cname, cc1, cc2⟩ := c
    rcases cid with _ | i
    · simp [upcomingCourseEntry] at hfc
    · by_cases hz : i = 0
      · simp [upcomingCourseEntry, hz] at hfc
      · simp only [upcomingCourseEntry, if_neg hz, Option.some.injEq] at hfc
        cases hfc
        exact ⟨hz, ⟨some i, cname, cc1, cc2⟩, hc, rfl⟩

/-! ## Announcements (`_strip_html`, `get_announcements_func`,
canvas_tools.py lines 201-248) -/

/-- Split a character list after its first `>`: the characters strictly
before it and those strictly after (or `none` when there is no `>`). -/
def splitAtGt : List Char → Option (List Char × List Char)
  | [] => none
  | c :: r =>
    if c = '>' then some ([], r)
    else (splitAtGt r).map (fun p => (c :: p.1, p.2))

/-- The remainder after the first `>` is strictly shorter than the input. -/
theorem splitAtGt_length :
    ∀ (l : List Char) (p : List Char × List Char),
      splitAtGt l = some p → p.2.length < l.length := by
  intro l
  induction l with
  | nil => intro p hp; simp [splitAtGt] at hp
  | cons c r ih =>
    intro p hp
    by_cases hc : c = '>'
    · simp only [splitAtGt, if_pos hc, Option.some.injEq] at hp
      cases hp
      simp
    · simp only [splitAtGt, if_neg hc, Option.map_eq_some'] at hp
      obtain ⟨q, hq, rfl⟩ := hp
      exact Nat.lt_succ_of_lt (ih q hq)

/-- The tag scan of `re.sub(r"<[^>]+>", " ", html)` (line 203), with fuel for
structural recursion (any fuel of at least the input length is exhaustive,
since every step strictly shortens the input): a `<` followed by at least one
non-`>` character and a `>` is one non-overlapping match, replaced by a
single space; any other character (including a `<` that starts no match) is
kept and scanning continues after it. -/
def stripTagsF (fuel : Nat) (l : List Char) : List Char :=
  match fuel, l with
  | 0, l => l
  | _ + 1, [] => []
  | fuel + 1, c :: r =>
    if c = '<' then
      match splitAtGt r with
      | some (inside, after) =>
        if inside.isEmpty then c :: stripTagsF fuel r
        else ' ' :: stripTagsF fuel after
      | none => c :: stripTagsF fuel r
    else c :: stripTagsF fuel r

/-- The tag scan at its exhaustive fuel. -/
def stripTags (l : List Char) : List Char :=
  stripTagsF l.length l

/-- Model of `re.sub(r"\s+", " ", text)` (line 204): each maximal whitespace run
becomes a single space. -/
def collapseWs : List Char → List Char
  | [] => []
  | [c] => [if c.isWhitespace then ' ' else c]
  | c :: d :: r =>
    if c.isWhitespace && d.isWhitespace then collapseWs (d :: r)
    else (if c.isWhitespace then ' ' else c) :: collapseWs (d :: r)

/-- Model of `_strip_html` (lines 201-207): drop tags, collapse whitespace, strip, and
truncate to the fixed display length 240 with an ellipsis marker. -/
def stripHtml (html : String) : String :=
  let text := collapseWs (stripTags html.data)
  let text :=
    (text.dropWhile Char.isWhitespace).reverse.dropWhile Char.isWhitespace |>.reverse
  if 240 < text.length then ⟨text.take 240 ++ ['…']⟩ else ⟨text⟩

/-- Python `s.replace(pat, "")` for a nonempty pattern `p :: ps`: delete every
non-overlapping occurrence, scanning left to right (fuel for structural
recursion; any fuel of at least the input length is exhaustive). -/
def listDeleteAllF (p : Char) (ps : List Char) : Nat → List Char → List Char
  | 0, l => l
  | _ + 1, [] => []
  | fuel + 1, c :: cs =>
    if listHeadMatch (p :: ps) (c :: cs) then
      listDeleteAllF p ps fuel (cs.drop ps.length)
    else c :: listDeleteAllF p ps fuel cs

/-- The occurrence deletion at its exhaustive fuel. -/
def listDeleteAll (p : Char) (ps : List Char) (l : List Char) : List Char :=
  listDeleteAllF p ps l.length l

/-- Python `s.replace(pat, "")` on strings (empty pattern never occurs in the
embedded code). -/
def strDeleteAll (s pat : String) : String :=
  match pat.data with
  | [] => s
  | p :: ps => ⟨listDeleteAll p ps s.data⟩

/-- A remote announcement record as `get_announcements_func` reads one
element of the aggregated response list. -/
structure AnnouncementRec where
  title : Option String
  message : Option String
  context_code : Option String
  course_id : Option Int
  created_at : JsonTime
  posted_at : JsonTime
deriving DecidableEq, Repr

/-- Model of `_parse_iso(a.get("created_at")) or _parse_iso(a.get("posted_at"))`
(line 239): the parsed creation instant, falling back to the posted instant. -/
def announcementKey (a : AnnouncementRec) : Option Int :=
  match parseIso a.created_at with
  | some t => some t
  | none => parseIso a.posted_at

/-- One display line of the announcements report (lines 240-244): title
defaulted, course reference from the truthy `course_id` field or else the
`context_code` with every `course_` deleted, the creation instant, and the
HTML-stripped message summary. -/
def announcementLine (a : AnnouncementRec) : String :=
  let title := pyOrStr a.title "无标题公告"
  let message := pyOrStr a.message ""
  let courseIdStr := strDeleteAll (a.context_code.getD "") "course_"
  let courseNameResolved :=
    match a.course_id with
    | some i => if i = 0 then courseIdStr else toString i
    | none => courseIdStr
  "公告: " ++ title ++ " | 课程: " ++ courseNameResolved ++ " | 日期: "
    ++ formatTime (announcementKey a) ++ " | 摘要: " ++ stripHtml message

/-- The `(key, line)` pairs of the report (lines 237-245): an absent or
unparseable timestamp falls back to `datetime.fromtimestamp(0, utc)`, the
Unix epoch (instant `0`). -/
def announcementPairs (data : List AnnouncementRec) : List (Int × String) :=
  data.map (fun a => ((announcementKey a).getD 0, announcementLine a))

/-- The sorted report items (line 247): stable sort by key, descending
(`reverse=True`). -/
def sortedAnnouncements (data : List AnnouncementRec) : List (Int × String) :=
  (announcementPairs data).insertionSort (fun x y => y.1 ≤ x.1)

/-- The final announcements report (lines 233-248): a sentinel for an empty
response, otherwise the sorted lines joined.  (The upstream request scoping of
lines 210-231 — hint resolution and context codes — is settled separately
under C2/C6; no claim inspects it here.) -/
def announcementsReport (data : List AnnouncementRec) : String :=
  if data.isEmpty then "未找到相关公告。"
  else String.intercalate "\n" ((sortedAnnouncements data).map (·.2))

/-- The announcement record of the C8 counterexample with no parseable
timestamp at all. -/
def annUnparseable : AnnouncementRec :=
  ⟨some "A", some "", none, none, .malformed "not-a-date", .null⟩

/-- The announcement record of the C8 counterexample with a parseable
creation instant one day before the Unix epoch. -/
def annPreEpoch : AnnouncementRec :=
  ⟨some "B", some "", none, none, .iso (-86400), .null⟩

/-- Counterexample to **C8** as stated: the unparseable-timestamp record
sorts at the Unix epoch (key `0`), not at the oldest possible instant — in
the sorted (descending) report it appears *before* a record whose parseable
creation instant predates the epoch. -/
theorem unparseable_announcement_before_pre_epoch :
    (sortedAnnouncements [annUnparseable, annPreEpoch]).map Prod.fst
      = [0, -86400]
    ∧ (sortedAnnouncements [annUnparseable, annPreEpoch]).map Prod.snd
      = [announcementLine annUnparseable, announcementLine annPreEpoch] := by
  decide

/-- Claim C8 (amended): the announcements report is sorted by creation instant
descending (newest first); a record whose timestamps are absent or
unparseable sorts with the Unix-epoch key `0` — hence it appears after every
record whose parseable creation instant is strictly after the epoch (not
after *every* parseable record: a pre-epoch instant sorts below it). -/
theorem announcements_sorted_desc (data : List AnnouncementRec) :
    List.Sorted (fun p q : Int × String => q.1 ≤ p.1) (sortedAnnouncements data)
    ∧ (∀ a ∈ data, parseIso a.created_at = none → parseIso a.posted_at = none →
        (0, announcementLine a) ∈ sortedAnnouncements data)
    ∧ ∀ (i j : Fin (sortedAnnouncements data).length),
        0 < ((sortedAnnouncements data).get i).1 →
        ((sortedAnnouncements data).get j).1 ≤ 0 → i < j := by
  have hsorted : List.Sorted (fun p q : Int × String => q.1 ≤ p.1)
      (sortedAnnouncements data) := by
    haveI : IsTotal (Int × String) (fun p q => q.1 ≤ p.1) :=
      ⟨fun a b => le_total b.1 a.1⟩
    haveI : IsTrans (Int × String) (fun p q => q.1 ≤ p.1) :=
      ⟨fun _ _ _ hab hbc => le_trans hbc hab⟩
    exact List.sorted_insertionSort _ _
  refine ⟨hsorted, ?_, ?_⟩
  · intro a ha hc hp
    have hkey : announcementKey a = none := by
      simp [announcementKey, hc, hp]
    have : (0, announcementLine a) ∈ announcementPairs data := by
      refine List.mem_map.mpr ⟨a, ha, ?_⟩
      simp [hkey]
    exact (List.perm_insertionSort _ _).mem_iff.mpr this
  · intro i j hi hj
    by_contra hij
    push_neg at hij
    rcases eq_or_lt_of_le hij with heq | hlt
    · rw [heq] at hj
      omega
    · have hrel := hsorted.rel_get_of_lt hlt
      simp only [] at hrel
      omega

/-- A C8 witness record with a parseable post-epoch creation instant. -/
def annPostEpoch : AnnouncementRec :=
  ⟨some "C", some "", none, none, .iso 100, .null⟩

/-- Witness for C8: on a concrete two-record response, the report is sorted
descending, the timestamp-less record sorts in with key 0, and it appears
strictly after the post-epoch record. -/
theorem announcements_sorted_desc_witness :
    List.Sorted (fun p q : Int × String => q.1 ≤ p.1)
      (sortedAnnouncements [annUnparseable, annPostEpoch])
    ∧ (0, announcementLine annUnparseable)
        ∈ sortedAnnouncements [annUnparseable, annPostEpoch]
    ∧ ((⟨0, by decide⟩ : Fin (sortedAnnouncements
          [annUnparseable, annPostEpoch]).length)
        < (⟨1, by decide⟩ : Fin (sortedAnnouncements
          [annUnparseable, annPostEpoch]).length)) := by
  refine ⟨(announcements_sorted_desc [annUnparseable, annPostEpoch]).1,
    (announcements_sorted_desc [annUnparseable, annPostEpoch]).2.1
      annUnparseable (by decide) (by decide) (by decide),
    (announcements_sorted_desc [annUnparseable, annPostEpoch]).2.2
      ⟨0, by decide⟩ ⟨1, by decide⟩ (by decide) (by decide)⟩

/-! ## File-tree builder (`_build_course_file_tree`, main.py lines 166-251) -/

/-- A remote folder record as the builder reads it. -/
structure FolderRec where
  id : Option Int
  parent_folder_id : Option Int
  context_type : Option String
  context_id : Option Int
  name : Option String
  full_name : Option String
  locked : Option Bool
  hidden : Option Bool
deriving DecidableEq, Repr

/-- A remote file record as the builder reads it (`mimeKind` models the
JSON key the source spells `mime` + underscore + `class`). -/
structure FileRec where
  id : Option Int
  folder_id : Option Int
  display_name : Option String
  filename : Option String
  size : Option Int
  content_type : Option String
  mimeKind : Option String
  updated_at : Option String
  modified_at : Option String
deriving DecidableEq, Repr

/-- The folder-id guard of the collection loop (lines 175-178): records with
a falsy id are skipped. -/
def validFolderId (f : FolderRec) : Option Int :=
  match f.id with
  | none => none
  | some i => if i = 0 then none else some i

/-- Model of `folder_by_id[fid]` (line 179): Python dict insertion, so on duplicate
ids the last record wins. -/
def folderById (folders : List FolderRec) (fid : Int) : Option FolderRec :=
  (folders.filter (fun f => validFolderId f == some fid)).getLast?

/-- Model of `children_map` at one key (lines 180-182): the ids of valid folders whose
`parent_folder_id` equals the key (`none` = top-level), in encounter order. -/
def childrenOf (folders : List FolderRec) (pid : Option Int) : List Int :=
  folders.filterMap (fun f =>
    match validFolderId f with
    | none => none
    | some fid => if f.parent_folder_id = pid then some fid else none)

/-- The child-sort name key (lines 193-194):
`str(folder_by_id.get(fid, {}).get("name", "")).lower()`. -/
def folderSortName (folders : List FolderRec) (fid : Int) : String :=
  strLower (((folderById folders fid).bind (·.name)).getD "")

/-- The child-sort comparison (line 194): ascending by `(lowered name, id)`. -/
def childKeyLe (folders : List FolderRec) (a b : Int) : Bool :=
  strLt (folderSortName folders a) (folderSortName folders b)
    || (folderSortName folders a == folderSortName folders b && decide (a ≤ b))

/-- A `children_map` list after the in-place sorting pass of lines 193-194
(the pass runs over every key, the top-level `None` key included). -/
def sortedChildrenOf (folders : List FolderRec) (pid : Option Int) : List Int :=
  (childrenOf folders pid).insertionSort (fun a b => childKeyLe folders a b = true)

/-- Model of `files_by_folder` at one key (lines 184-190): files whose `folder_id` is
present (`is None` check — `0` is kept) and equals the key. -/
def filesOf (files : List FileRec) (fid : Int) : List FileRec :=
  files.filter (fun fo => fo.folder_id == some fid)

/-- A mapped file entry (`_map_file`, lines 196-203). -/
structure FileEntry where
  id : Option Int
  display_name : String
  size : Option Int
  content_type : Option String
  updated_at : Option String
deriving DecidableEq, Repr

/-- Model of `_map_file` (lines 196-203): falsy chains for display name, content type
and timestamp. -/
def mapFile (fo : FileRec) : FileEntry :=
  ⟨fo.id, pyOrStr fo.display_name (pyOrStr fo.filename "未命名"), fo.size,
    pyOrOptStr fo.content_type fo.mimeKind,
    pyOrOptStr fo.updated_at fo.modified_at⟩

/-- The file-sort comparison (line 217): ascending by
`(lowered display name, id or 0)`. -/
def fileKeyLe (x y : FileEntry) : Bool :=
  strLt (strLower x.display_name) (strLower y.display_name)
    || (strLower x.display_name == strLower y.display_name
        && decide (x.id.getD 0 ≤ y.id.getD 0))

/-- One node of the synthesized tree (`_make_node`'s dict, lines 205-221):
the virtual root carries `id = none`. -/
inductive FolderNode where
  | node (id : Option Int) (name full_name : String) (locked hidden : Bool)
      (folders : List FolderNode) (files : List FileEntry)

/-- The `id` field of a node. -/
def FolderNode.nodeId : FolderNode → Option Int
  | .node i _ _ _ _ _ _ => i

/-- The `name` field of a node. -/
def FolderNode.nodeName : FolderNode → String
  | .node _ nm _ _ _ _ _ => nm

/-- The child-folder list of a node. -/
def FolderNode.nodeChildren : FolderNode → List FolderNode
  | .node _ _ _ _ _ cs _ => cs

/-- The file list of a node. -/
def FolderNode.nodeFiles : FolderNode → List FileEntry
  | .node _ _ _ _ _ _ fs => fs

/-- Monadic map for `Option` over lists, written out so the kernel evaluates it: `none`
as soon as one element fails. -/
def mapMOpt {α β : Type} (f : α → Option β) : List α → Option (List β)
  | [] => some []
  | a :: as =>
    match f a with
    | none => none
    | some b =>
      match mapMOpt f as with
      | none => none
      | some bs => some (b :: bs)

/-- Model of `_make_node` (lines 205-221) with explicit fuel: build the node for a
folder id — name/full-name default to `""`, locked/hidden to `false`, the
folder's files mapped and sorted, and one recursive child per entry of the
(sorted) children list.  `none` models the recursion not terminating (fuel
exhausted). -/
def makeNodeF (folders : List FolderRec) (files : List FileRec) :
    Nat → Int → Option FolderNode
  | 0, _ => none
  | fuel + 1, fid =>
    let f := folderById folders fid
    let mappedFiles :=
      ((filesOf files fid).map mapFile).insertionSort
        (fun x y => fileKeyLe x y = true)
    match mapMOpt (makeNodeF folders files fuel)
        (sortedChildrenOf folders (some fid)) with
    | none => none
    | some children =>
      some (.node (some fid)
        (pyOrStr (f.bind (·.name)) "")
        (pyOrStr (f.bind (·.full_name)) "")
        ((f.bind (·.locked)).getD false)
        ((f.bind (·.hidden)).getD false)
        children mappedFiles)

/-- Model of `root_candidates` (line 224): the sorted top-level children list. -/
def topLevelIds (folders : List FolderRec) : List Int :=
  sortedChildrenOf folders none

/-- The candidate test of lines 228-231: context type `"course"`
(case-insensitive) and context id equal to the requested course. -/
def isCourseContext (folders : List FolderRec) (cid : Int) (fid : Int) : Bool :=
  match folderById folders fid with
  | none => false
  | some f =>
    strLower (f.context_type.getD "") == "course" && f.context_id.getD 0 == cid

/-- The preference test of line 233: full name starting with `course files`,
case-insensitively. -/
def courseFilesNamed (folders : List FolderRec) (fid : Int) : Bool :=
  strStartsWith (strLower (((folderById folders fid).bind (·.full_name)).getD ""))
    "course files"

/-- The root selection of lines 223-234: among top-level folders prefer
course-context ones, among those the `course files`-named one, else the first
course-context one, else the first top-level one; `none` only when there are
no top-level folders at all. -/
def selectRootId (folders : List FolderRec) (cid : Int) : Option Int :=
  let rootCandidates := topLevelIds folders
  if rootCandidates.isEmpty then none
  else
    let cands := rootCandidates.filter (isCourseContext folders cid)
    let prefer := cands.filter (courseFilesNamed folders)
    match prefer with
    | p :: _ => some p
    | [] =>
      match cands with
      | c :: _ => some c
      | [] => rootCandidates.head?

/-- The builder's result (lines 236-251). -/
structure CourseTree where
  course_id : Int
  root : FolderNode

/-- The root node of a built tree. -/
def CourseTree.rootNode (t : CourseTree) : FolderNode :=
  t.root

/-- Model of `_build_course_file_tree` (lines 166-251) from the already-paginated
folder and file collections: build the node of the selected root, or — when
no top-level folder exists — the synthesized virtual root `Course Files`
whose children are the nodes of all top-level folders found. -/
def buildCourseFileTree (folders : List FolderRec) (files : List FileRec)
    (cid : Int) (fuel : Nat) : Option CourseTree :=
  match selectRootId folders cid with
  | some rid => (makeNodeF folders files fuel rid).map (fun n => ⟨cid, n⟩)
  | none =>
    (mapMOpt (makeNodeF folders files fuel) (topLevelIds folders)).map
      (fun children =>
        ⟨cid, .node none "Course Files" "course files" false false children []⟩)

/-- The two top-level folders of the C4 example (both course/5 context). -/
def rootDemoFolders : List FolderRec :=
  [⟨some 1, none, some "course", some 5, some "Course Files",
      some "Course Files", none, none⟩,
   ⟨some 2, none, some "course", some 5, some "Misc", some "Misc", none, none⟩]

/-- Claim C4: the root selection obeys the claimed order — first course-context
top-level folder whose full name starts with `course files`
(case-insensitively), else the first course-context top-level folder, else
the first top-level folder (the candidate lists as the builder keeps them,
i.e. sorted by case-insensitive name with id tie-break); and on the example
folders for course 5, folder 1 is selected as root. -/
theorem root_selection_policy (folders : List FolderRec) (cid : Int) :
    (selectRootId folders cid
      = ((((topLevelIds folders).filter (isCourseContext folders cid)).filter
            (courseFilesNamed folders)).head?.orElse (fun _ =>
          (((topLevelIds folders).filter (isCourseContext folders cid)).head?).orElse
            (fun _ => (topLevelIds folders).head?))))
    ∧ selectRootId rootDemoFolders 5 = some 1 := by
  constructor
  · rcases h1 : topLevelIds folders with _ | ⟨t, ts⟩
    · simp [selectRootId, h1]
    · rcases h2 : (t :: ts).filter (isCourseContext folders cid) with _ | ⟨c, cs⟩
      · simp [selectRootId, h1, h2]
      · rcases h3 : (c :: cs).filter (courseFilesNamed folders) with _ | ⟨p, ps⟩
        · simp [selectRootId, h1, h2, h3]
        · simp [selectRootId, h1, h2, h3]
  · decide

/-- The single top-level folder of the C5 counterexample: top-level but with
a user (non-course) context. -/
def nonCourseFolder : FolderRec :=
  ⟨some 1, none, some "user", some 9, some "mystuff", some "my files",
    none, none⟩

/-- Counterexample to **C5** as stated: a folder collection whose only
top-level folder has a non-course context has *no course-context top-level
candidate*, yet the builder does not synthesize a virtual `Course Files`
root — it falls back to that top-level folder itself (root id 1, name
`mystuff`). -/
theorem non_course_top_level_root_not_virtual :
    (buildCourseFileTree [nonCourseFolder] [] 5 1).map
        (fun t => t.root.nodeName) = some "mystuff"
    ∧ (buildCourseFileTree [nonCourseFolder] [] 5 1).map
        (fun t => t.root.nodeId) = some (some 1) := by
  decide

/-- Claim C5 (amended): for every folder collection with *no top-level folder
at all*, the builder returns a synthesized virtual root named `Course Files`
(id `null`) whose child folders are all top-level folders found (necessarily
none here) — a normal result, not an error. -/
theorem virtual_root_when_no_top_level (folders : List FolderRec)
    (files : List FileRec) (cid : Int) (fuel : Nat)
    (h : topLevelIds folders = []) :
    buildCourseFileTree folders files cid fuel
      = some ⟨cid, .node none "Course Files" "course files" false false [] []⟩ := by
  simp [buildCourseFileTree, selectRootId, h, mapMOpt]

/-- The folders of the C5 witness: every folder has a parent (a parent
cycle), so no top-level folder exists. -/
def cyclicFolders : List FolderRec :=
  [⟨some 1, some 2, some "course", some 5, some "a", some "a", none, none⟩,
   ⟨some 2, some 1, some "course", some 5, some "b", some "b", none, none⟩]

/-- Witness for C5: on a concrete collection with no top-level folder, the
builder returns the synthesized virtual root. -/
theorem virtual_root_when_no_top_level_witness :
    buildCourseFileTree cyclicFolders [] 5 0
      = some ⟨5, .node none "Course Files" "course files" false false [] []⟩ :=
  virtual_root_when_no_top_level cyclicFolders [] 5 0 (by decide)

/-- The child→parent edges of the folder collection (the pairs the
`children_map` adjacency is built from). -/
def folderEdges (folders : List FolderRec) : List (Int × Int) :=
  folders.filterMap (fun f =>
    match validFolderId f, f.parent_folder_id with
    | some fid, some pid => some (fid, pid)
    | _, _ => none)

/-- A member of a `children_map` list is a child edge. -/
theorem mem_childrenOf_edge (folders : List FolderRec) (c pid : Int)
    (h : c ∈ childrenOf folders (some pid)) : (c, pid) ∈ folderEdges folders := by
  obtain ⟨f, hf, hfc⟩ := List.mem_filterMap.mp h
  rcases hv : validFolderId f with _ | fid <;> rw [hv] at hfc
  · simp at hfc
  · by_cases hp : f.parent_folder_id = some pid
    · simp only [hp, if_pos, Option.some.injEq] at hfc
      refine List.mem_filterMap.mpr ⟨f, hf, ?_⟩
      rw [hv, hp]
      simp [hfc]
    · simp [hp] at hfc

/-- The monadic map succeeds when every element succeeds. -/
theorem mapMOpt_isSome {α β : Type} (f : α → Option β) :
    ∀ (l : List α), (∀ a ∈ l, (f a).isSome) → (mapMOpt f l).isSome := by
  intro l
  induction l with
  | nil => intro _; simp [mapMOpt]
  | cons a as ih =>
    intro h
    have ha := h a (by simp)
    rcases hfa : f a with _ | b
    · rw [hfa] at ha; simp at ha
    · have has := ih (fun x hx => h x (by simp [hx]))
      rcases hrec : mapMOpt f as with _ | bs
      · rw [hrec] at has; simp at has
      · simp [mapMOpt, hfa, hrec]

/-- A successful `mapMOpt` attaches one output per input. -/
theorem mapMOpt_length {α β : Type} (f : α → Option β) :
    ∀ (l : List α) (bs : List β), mapMOpt f l = some bs → bs.length = l.length := by
  intro l
  induction l with
  | nil => intro bs h; simp [mapMOpt] at h; simp [← h]
  | cons a as ih =>
    intro bs h
    rcases hfa : f a with _ | b <;> rw [mapMOpt, hfa] at h
    · simp at h
    · rcases hrec : mapMOpt f as with _ | cs <;> rw [hrec] at h
      · simp at h
      · cases h
        simp [ih cs hrec]

/-- Node construction succeeds given fuel above the folder's rank, when ranks
strictly decrease along child edges. -/
theorem makeNodeF_isSome (folders : List FolderRec) (files : List FileRec)
    (rank : Int → Nat)
    (hrank : ∀ e ∈ folderEdges folders, rank e.1 < rank e.2) :
    ∀ (fuel : Nat) (fid : Int), rank fid < fuel →
      (makeNodeF folders files fuel fid).isSome := by
  intro fuel
  induction fuel with
  | zero => intro fid h; omega
  | succ k ih =>
    intro fid h
    have hch : ∀ c ∈ sortedChildrenOf folders (some fid),
        (makeNodeF folders files k c).isSome := by
      intro c hc
      have hc' : c ∈ childrenOf folders (some fid) :=
        (List.perm_insertionSort _ _).mem_iff.mp hc
      have hedge := mem_childrenOf_edge folders c fid hc'
      have hlt := hrank _ hedge
      simp only [] at hlt
      exact ih c (by omega)
    have hmm := mapMOpt_isSome (makeNodeF folders files k)
      (sortedChildrenOf folders (some fid)) hch
    rcases hrec : mapMOpt (makeNodeF folders files k)
        (sortedChildrenOf folders (some fid)) with _ | children
    · rw [hrec] at hmm; simp at hmm
    · simp [makeNodeF, hrec]

/-- The selected root is one of the top-level folders. -/
theorem selectRootId_mem_topLevel (folders : List FolderRec) (cid : Int)
    (rid : Int) (h : selectRootId folders cid = some rid) :
    rid ∈ topLevelIds folders := by
  rcases h1 : topLevelIds folders with _ | ⟨t, ts⟩
  · rw [selectRootId, h1] at h
    simp at h
  · rw [selectRootId, h1] at h
    simp only [List.isEmpty_cons, if_false, Bool.false_eq_true] at h
    rcases h3 : ((t :: ts).filter (isCourseContext folders cid)).filter
        (courseFilesNamed folders) with _ | ⟨p, ps⟩ <;> rw [h3] at h
    · rcases h2 : (t :: ts).filter (isCourseContext folders cid) with _ | ⟨c, cs⟩ <;>
        rw [h2] at h
      · simp only [List.head?_cons, Option.some.injEq] at h
        rw [← h]
        exact List.mem_cons_self t ts
      · simp only [Option.some.injEq] at h
        have hc : rid ∈ (t :: ts).filter (isCourseContext folders cid) := by
          rw [h2, ← h]
          exact List.mem_cons_self c cs
        exact List.mem_of_mem_filter hc
    · simp only [Option.some.injEq] at h
      have hp : rid ∈ ((t :: ts).filter (isCourseContext folders cid)).filter
          (courseFilesNamed folders) := by
        rw [h3, ← h]
        exact List.mem_cons_self p ps
      exact List.mem_of_mem_filter (List.mem_of_mem_filter hp)

/-- Claim C10: when the parent relation is acyclic — witnessed by a rank
function that strictly decreases from parent to child along every edge — the
builder terminates (any fuel above the ranks of the top-level folders
suffices) and every constructed node has its children fully attached: one
child node per entry of its children list. -/
theorem build_tree_terminates_acyclic (folders : List FolderRec)
    (files : List FileRec) (cid : Int) (rank : Int → Nat) (fuel : Nat)
    (hrank : ∀ e ∈ folderEdges folders, rank e.1 < rank e.2)
    (hfuel : ∀ fid ∈ topLevelIds folders, rank fid < fuel) :
    (buildCourseFileTree folders files cid fuel).isSome
    ∧ ∀ (fid : Int) (k : Nat), rank fid < k →
        (makeNodeF folders files k fid).isSome
        ∧ ∀ n, makeNodeF folders files k fid = some n →
            n.nodeChildren.length = (sortedChildrenOf folders (some fid)).length := by
  constructor
  · rcases hroot : selectRootId folders cid with _ | rid
    · rw [buildCourseFileTree, hroot]
      have := mapMOpt_isSome (makeNodeF folders files fuel) (topLevelIds folders)
        (fun fid hfid => makeNodeF_isSome folders files rank hrank fuel fid
          (hfuel fid hfid))
      rcases hmm : mapMOpt (makeNodeF folders files fuel) (topLevelIds folders)
          with _ | children
      · rw [hmm] at this; simp at this
      · simp [hmm]
    · rw [buildCourseFileTree, hroot]
      have hmem := selectRootId_mem_topLevel folders cid rid hroot
      have := makeNodeF_isSome folders files rank hrank fuel rid (hfuel rid hmem)
      rcases hmk : makeNodeF folders files fuel rid with _ | n
      · rw [hmk] at this; simp at this
      · simp [hmk]
  · intro fid k hk
    refine ⟨makeNodeF_isSome folders files rank hrank k fid hk, ?_⟩
    intro n hn
    match k, hk with
    | k + 1, _ =>
      rw [makeNodeF] at hn
      rcases hmm : mapMOpt (makeNodeF folders files k)
          (sortedChildrenOf folders (some fid)) with _ | children <;>
        rw [hmm] at hn
      · simp at hn
      · simp only [Option.some.injEq] at hn
        rw [← hn]
        simp [FolderNode.nodeChildren, mapMOpt_length _ _ _ hmm]

/-- The folders of the C10 witness: a top-level course root with one child. -/
def demoTreeFolders : List FolderRec :=
  [⟨some 1, none, some "course", some 5, some "course files",
      some "course files", none, none⟩,
   ⟨some 2, some 1, some "course", some 5, some "week1", some "course files/week1",
      none, none⟩]

/-- The rank function of the C10 witness (parent above child). -/
def demoRank : Int → Nat := fun fid => if fid = 1 then 1 else 0

/-- Witness for C10: on the concrete two-folder chain the builder succeeds
with fuel 2. -/
theorem build_tree_terminates_acyclic_witness :
    (buildCourseFileTree demoTreeFolders [] 5 2).isSome := by
  exact (build_tree_terminates_acyclic demoTreeFolders [] 5 demoRank 2
    (by decide) (by decide)).1

/-! ## `browse_course_files` tool wrapper (canvas_tools.py lines 307-336) -/

/-- A pattern heading a list matches it, whatever follows. -/
theorem listHeadMatch_append_self :
    ∀ (l rest : List Char), listHeadMatch l (l ++ rest) = true := by
  intro l
  induction l with
  | nil => intro rest; simp [listHeadMatch]
  | cons c cs ih => intro rest; simp [listHeadMatch, ih]

/-- A head match is in particular an infix match. -/
theorem listInfixMatch_of_headMatch (pat s : List Char)
    (h : listHeadMatch pat s = true) : listInfixMatch pat s = true := by
  cases s with
  | nil =>
    cases pat with
    | nil => simp [listInfixMatch, listHeadMatch]
    | cons p ps => simp [listHeadMatch] at h
  | cons c cs => simp [listInfixMatch, h]

/-- An infix match survives prepending characters. -/
theorem listInfixMatch_append_left :
    ∀ (pre pat s : List Char), listInfixMatch pat s = true →
      listInfixMatch pat (pre ++ s) = true := by
  intro pre
  induction pre with
  | nil => intro pat s h; simpa using h
  | cons c cs ih =>
    intro pat s h
    rcases pat with _ | ⟨p, ps⟩
    · simp [listInfixMatch, listHeadMatch]
    · simp only [List.cons_append, listInfixMatch, Bool.or_eq_true]
      exact Or.inr (ih _ s h)

/-- The effective hint of the wrapper (line 316):
`(course_hint or course_name or "").strip()`. -/
def effectiveHint (course_hint course_name : Option String) : String :=
  strStrip (pyOrStr course_hint (pyOrStr course_name ""))

/-- The frontend UI directive (line 328):
`__UI_FILE_BROWSER_CARD__{"courseId": <id>}__`. -/
def uiDirective (cid : Int) : String :=
  "__UI_FILE_BROWSER_CARD__\x7b\"courseId\": " ++ toString cid ++ "\x7d__"

/-- The hint branch of the wrapper (lines 315-326): demand a hint, resolve
it, and answer not-found / a capped candidate list / the directive for the
unique match. -/
def browseByHint (course_name course_hint : Option String)
    (courses : List CourseRec) : String :=
  let hint := effectiveHint course_hint course_name
  if hint = "" then "请提供 course_id 或 course_name/course_hint"
  else
    match findCourseIdsByHint hint courses with
    | [] => "未找到匹配课程: " ++ hint
    | [i] => uiDirective i
    | i :: j :: rest =>
      "找到多门匹配课程，请指定课程ID后再试。候选ID: "
        ++ String.intercalate ", " (((i :: j :: rest).take 10).map toString)
        ++ "…"

/-- Model of `browse_course_files_wrapper` (lines 307-336): a truthy `course_id` is
trusted as the resolved id; otherwise the hint branch runs. -/
def browseCourseFiles (course_id : Option Int)
    (course_name course_hint : Option String) (courses : List CourseRec) : String :=
  match course_id with
  | some cid =>
    if cid = 0 then browseByHint course_name course_hint courses
    else uiDirective cid
  | none => browseByHint course_name course_hint courses

/-- The directive embeds the resolved course id: it contains the literal
substring `courseId": <id>`. -/
theorem uiDirective_contains_courseId (cid : Int) :
    strContains (uiDirective cid) ("courseId\": " ++ toString cid) = true := by
  have hdata : (uiDirective cid).data
      = ("__UI_FILE_BROWSER_CARD__\x7b\"" : String).data
        ++ (("courseId\": " ++ toString cid).data ++ ("\x7d__" : String).data) := by
    simp [uiDirective, String.data_append, List.append_assoc]
  rw [strContains, hdata]
  exact listInfixMatch_append_left _ _ _
    (listInfixMatch_of_headMatch _ _ (listHeadMatch_append_self _ _))

/-- The directive starts with the sentinel prefix. -/
theorem uiDirective_startsWith_sentinel (cid : Int) :
    strStartsWith (uiDirective cid) "__UI_FILE_BROWSER_CARD__" = true := by
  rfl

/-- The multiple-match disambiguation message never starts with the sentinel
prefix, whatever the candidate list. -/
theorem multi_message_no_sentinel (tail : String) :
    strStartsWith ("找到多门匹配课程，请指定课程ID后再试。候选ID: " ++ tail)
      "__UI_FILE_BROWSER_CARD__" = false := by
  rfl

/-- Claim C6: `browse_course_files` given a course reference by hint: on a
unique match it returns the fixed-format control sentinel embedding the
resolved course id (containing the literal substring `courseId": <id>`), on
zero matches a not-found message, and on multiple matches a disambiguation
message listing the candidate ids capped at 10 — a message that is never the
control sentinel, so it never silently picks one. -/
theorem browse_course_files_resolution (course_name course_hint : Option String)
    (courses : List CourseRec) :
    (∀ cid : Int,
      findCourseIdsByHint (effectiveHint course_hint course_name) courses = [cid] →
      browseCourseFiles none course_name course_hint courses = uiDirective cid
      ∧ strContains (browseCourseFiles none course_name course_hint courses)
          ("courseId\": " ++ toString cid) = true)
    ∧ (effectiveHint course_hint course_name ≠ "" →
      findCourseIdsByHint (effectiveHint course_hint course_name) courses = [] →
      browseCourseFiles none course_name course_hint courses
        = "未找到匹配课程: " ++ effectiveHint course_hint course_name)
    ∧ (∀ (i j : Int) (rest : List Int),
      findCourseIdsByHint (effectiveHint course_hint course_name) courses
        = i :: j :: rest →
      browseCourseFiles none course_name course_hint courses
        = "找到多门匹配课程，请指定课程ID后再试。候选ID: "
            ++ String.intercalate ", " (((i :: j :: rest).take 10).map toString)
            ++ "…"
      ∧ strStartsWith (browseCourseFiles none course_name course_hint courses)
          "__UI_FILE_BROWSER_CARD__" = false
      ∧ ∀ cid : Int,
          browseCourseFiles none course_name course_hint courses
            ≠ uiDirective cid) := by
  have hempty : findCourseIdsByHint "" courses = [] := by
    simp [findCourseIdsByHint]
  refine ⟨?_, ?_, ?_⟩
  · intro cid hres
    have hne : effectiveHint course_hint course_name ≠ "" := by
      intro h0
      rw [h0, hempty] at hres
      cases hres
    have hb : browseCourseFiles none course_name course_hint courses
        = uiDirective cid := by
      simp [browseCourseFiles, browseByHint, hne, hres]
    exact ⟨hb, by rw [hb]; exact uiDirective_contains_courseId cid⟩
  · intro hne hres
    simp [browseCourseFiles, browseByHint, hne, hres]
  · intro i j rest hres
    have hne : effectiveHint course_hint course_name ≠ "" := by
      intro h0
      rw [h0, hempty] at hres
      cases hres
    have hb : browseCourseFiles none course_name course_hint courses
        = "找到多门匹配课程，请指定课程ID后再试。候选ID: "
            ++ String.intercalate ", " (((i :: j :: rest).take 10).map toString)
            ++ "…" := by
      simp [browseCourseFiles, browseByHint, hne, hres]
    refine ⟨hb, ?_, ?_⟩
    · rw [hb, String.append_assoc]
      exact multi_message_no_sentinel _
    · intro cid hEq
      have hfalse : strStartsWith (uiDirective cid)
          "__UI_FILE_BROWSER_CARD__" = false := by
        rw [← hEq, hb, String.append_assoc]
        exact multi_message_no_sentinel _
      rw [uiDirective_startsWith_sentinel cid] at hfalse
      cases hfalse

/-- Witness course for C6: resolving it by its exact code yields the unique
id 42. -/
def browseDemoCourse : CourseRec := ⟨some 42, some "Databases", some "SDSC5003", none⟩

/-- Witness for C6: the unique match with resolved id 42 returns the control
sentinel containing the literal substring `courseId": 42`; a two-course set
yields the capped disambiguation message, not a sentinel. -/
theorem browse_course_files_resolution_witness :
    browseCourseFiles none none (some "SDSC5003") [browseDemoCourse]
      = uiDirective 42
    ∧ strContains (browseCourseFiles none none (some "SDSC5003") [browseDemoCourse])
        ("courseId\": " ++ toString (42 : Int)) = true
    ∧ browseCourseFiles none none (some "nothing-here") [browseDemoCourse]
      = "未找到匹配课程: " ++ "nothing-here"
    ∧ strStartsWith (browseCourseFiles none none (some "500")
        [⟨some 1, some "A 500", none, none⟩, ⟨some 2, some "B 500", none, none⟩])
        "__UI_FILE_BROWSER_CARD__" = false := by
  have h1 := (browse_course_files_resolution none (some "SDSC5003")
    [browseDemoCourse]).1 42 (by decide)
  have h2 := (browse_course_files_resolution none (some "nothing-here")
    [browseDemoCourse]).2.1 (by decide) (by decide)
  have h3 := (browse_course_files_resolution none (some "500")
    [⟨some 1, some "A 500", none, none⟩, ⟨some 2, some "B 500", none, none⟩]).2.2
    1 2 [] (by decide)
  exact ⟨h1.1, h1.2, h2, h3.2.1⟩

/-! ## Agent orchestrator fallback (agent.py lines 119-220, main.py
lines 48-112)

The two LLM-driven tool-calling strategies are external collaborators; each
one's outcome (the structured-chat primary of agent.py lines 185-192 with
its `invoke`/`run` pair, and the OpenAI-functions fallback of lines 199-213)
is modelled as an `Except Unit String`: `ok` the extracted final text,
`error` an exception escaping both its attempts.

The `chat` handler's call into `run_agent` is modelled including Python's
keyword-argument binding, because the call site and the callee's signature
disagree: `chat` passes a `history` keyword (main.py line 100) that
`run_agent` (agent.py lines 119-127) does not accept. -/

/-- The text-selection core of `run_agent` (lines 185-216): an exception of
the primary escapes; an empty or whitespace-only primary answer triggers the
fallback strategy, whose result — empty or not — replaces the answer, and
whose failure is swallowed (keeping the primary's empty text); a nonempty
primary answer is returned as is. -/
def runAgentText (primary fallback : Except Unit String) : Except Unit String :=
  match primary with
  | .error e => .error e
  | .ok t =>
    if strStrip t = "" then
      match fallback with
      | .ok t2 => .ok t2
      | .error _ => .ok t
    else .ok t

/-- The caller-visible outcome of `POST /api/chat`. -/
inductive ChatOutcome where
  | answer (s : String)
  | emptyUpstream502
  | agentError500
deriving DecidableEq, Repr

/-- The `chat` handler's mapping of a *successfully returned* agent result
(main.py lines 102-112, considered on its own): an exception maps to the 500
agent-error; an empty or whitespace-only answer maps to the distinct 502
empty-upstream condition; otherwise the answer is returned.  This mapping is
what the handler's code would apply had the `run_agent` call of lines 92-101
bound its arguments — the faithful endpoint including that call is
`chatEndpoint` below. -/
def chatOutcome (primary fallback : Except Unit String) : ChatOutcome :=
  match runAgentText primary fallback with
  | .error _ => .agentError500
  | .ok ans => if strStrip ans = "" then .emptyUpstream502 else .answer ans

/-- The parameter names of `run_agent` (agent.py lines 119-127); the
signature has no `**kwargs` and no further parameter. -/
def runAgentParamNames : List String :=
  ["user_message", "canvas_token", "llm_base_url", "llm_api_key", "llm_model",
   "verbose", "request_id"]

/-- The keyword names of the `run_agent(...)` call in `chat`
(main.py lines 92-101). -/
def chatCallKeywordNames : List String :=
  ["user_message", "canvas_token", "llm_base_url", "llm_api_key", "llm_model",
   "verbose", "request_id", "history"]

/-- Python keyword binding for that call: it succeeds iff every keyword the
caller passes is a parameter the callee accepts; otherwise the call raises
`TypeError` before the callee body runs. -/
def chatCallBinds : Bool :=
  chatCallKeywordNames.all (fun k => runAgentParamNames.contains k)

/-- The actual `/api/chat` behavior (main.py lines 91-112): the `run_agent`
call of lines 92-101 first binds its keyword arguments; a keyword the callee
does not accept raises `TypeError` inside the `try`, which the generic
`except Exception` of lines 110-112 turns into the 500 agent-error without
ever reaching the answer mapping of lines 102-107. -/
def chatEndpoint (primary fallback : Except Unit String) : ChatOutcome :=
  if chatCallBinds then chatOutcome primary fallback
  else .agentError500

/-- Claim C7 (code bug): `run_agent`'s internal tiers behave as the claim
says — an empty or whitespace-only primary answer is replaced by the
fallback strategy's result (even when non-empty) with any fallback failure
swallowed — and the handler's own mapping of main.py lines 104-106 would
turn an empty final answer into the distinct 502 empty-upstream condition;
but the endpoint never exhibits that condition: the call at main.py line 100
passes a `history` keyword that `run_agent` does not accept, so keyword
binding fails, every request raises `TypeError`, and the caller always sees
the 500 agent-error instead. -/
theorem chat_empty_answer_unreachable (t t2 : String) (he : strStrip t = "") :
    runAgentText (.ok t) (.ok t2) = .ok t2
    ∧ runAgentText (.ok t) (.error ()) = .ok t
    ∧ (strStrip t2 = "" → chatOutcome (.ok t) (.ok t2) = .emptyUpstream502)
    ∧ chatOutcome (.ok t) (.error ()) = .emptyUpstream502
    ∧ (strStrip t2 ≠ "" → chatOutcome (.ok t) (.ok t2) = .answer t2)
    ∧ chatCallBinds = false
    ∧ (∀ p f : Except Unit String, chatEndpoint p f = .agentError500)
    ∧ chatEndpoint (.ok t) (.ok t2) ≠ .emptyUpstream502 := by
  have hbind : chatCallBinds = false := by decide
  refine ⟨?_, ?_, ?_, ?_, ?_, hbind, ?_, ?_⟩
  · simp [runAgentText, he]
  · simp [runAgentText, he]
  · intro h2
    simp [chatOutcome, runAgentText, he, h2]
  · simp [chatOutcome, runAgentText, he]
  · intro h2
    simp [chatOutcome, runAgentText, he, h2]
  · intro p f
    simp [chatEndpoint, hbind]
  · simp [chatEndpoint, hbind]

/-- Witness for C7 at the failing input (a chat request whose strategies
would both answer whitespace-only text): the fallback replacement and the
in-isolation 502 mapping hold, yet the endpoint returns the 500 agent-error,
not the 502 empty-upstream condition. -/
theorem chat_empty_answer_unreachable_witness :
    runAgentText (.ok "  ") (.ok "你好") = .ok "你好"
    ∧ chatOutcome (.ok "  ") (.ok " ") = .emptyUpstream502
    ∧ chatOutcome (.ok "  ") (.error ()) = .emptyUpstream502
    ∧ chatEndpoint (.ok "  ") (.ok " ") = .agentError500
    ∧ chatEndpoint (.ok "  ") (.ok " ") ≠ .emptyUpstream502 := by
  have h := chat_empty_answer_unreachable "  " "你好" (by decide)
  have h2 := chat_empty_answer_unreachable "  " " " (by decide)
  exact ⟨h.1, h2.2.2.1 (by decide), h.2.2.2.1, h2.2.2.2.2.2.2.1 _ _,
    h2.2.2.2.2.2.2.2⟩

end CanvasLMS
